import Mathlib

/-!
Verification development for the Hypnos repository.

Part 1 models the capability ledger, the contract `HypnosExecutor.sol`:
the `Permission` and `ExecutionRecord` structures, the event log, and the
four externally callable operations `grantPermission`, `revokePermission`,
`executeWithPermission` and `executeTokenTransfer`.

Modelling conventions:
- `address`, `bytes32`, `bytes4` and `uint256` values are all modelled as `Nat`
  (the zero address is `0`, a `bytes4` selector is its big-endian value, the
  wildcard selector is `0`).
- `bytes` values (calldata payloads, return data) are lists of byte values.
- A Solidity mapping is a Lean function; the `permissions` mapping returns the
  all-zero `Permission` record for absent keys, exactly as EVM storage does,
  and existence of a permission is the check `target != 0` used by the source.
- `keccak256(abi.encodePacked(..))` is modelled by a deterministic fold over
  the packed words (`keccakModel`).  Equal inputs give equal hashes, as for
  the real keccak256; no theorem below relies on collision freeness.
- A `require` failure reverts the whole call, so every operation returns
  `Except`: on `error` no new state is produced (the ledger is unchanged).
- The external call `target.call{value}(data)` performed by
  `executeWithPermission` is an input of the model: the pair
  `(success, returnData)` it would produce is passed in as the `inner`
  argument.  Likewise `safeTransferFrom` in `executeTokenTransfer` is the
  boolean input `transferOk` (it reverts the operation when false).
  Inner calls do not mutate the ledger in this model; a reentrant
  `grantPermission` or `revokePermission` issued by the target is represented
  as a separate operation in an operation sequence (`applyOps`), which is
  state-equivalent because `executeWithPermission` reads the permission only
  before the inner call and afterwards writes only execution data.
-/

/-- Big-endian value of a byte list, as `uint256` words are read from memory. -/
def beNat (bs : List Nat) : Nat := bs.foldl (fun a b => a * 256 + b) 0

/-- Big-endian 32-byte encoding of a value, one EVM word. -/
def word32 (n : Nat) : List Nat :=
  (List.range 32).map (fun i => n / 256 ^ (31 - i) % 256)

/-- Bytes interpreted as a string, as `abi.decode(..., (string))` builds one. -/
def stringOfBytes (bs : List Nat) : String :=
  String.mk (bs.map Char.ofNat)

/-- The conversion `bytes4(data)` of the source: the first four bytes of the
payload, zero-padded on the right when the payload is shorter, read as a
big-endian selector value. -/
def selOf (data : List Nat) : Nat :=
  beNat (data.take 4 ++ List.replicate (4 - data.length) 0)

/-- Deterministic stand-in for `keccak256(abi.encodePacked(xs))`.  Equal packed
inputs give equal digests, which is the only property of keccak256 the
contract logic depends on; the mixing constant is arbitrary. -/
def keccakModel (xs : List Nat) : Nat :=
  xs.foldl (fun a x => a * 340282366920938463463374607431768211507 + x + 1) 1

/-- The permission id derivation of `grantPermission`:
`keccak256(abi.encodePacked(executor, target, selector, maxValue,
maxTokenAmount, tokenAddress, expiry, block.timestamp, block.number))`. -/
def permIdHash (executor target selector maxValue maxTokenAmount
    tokenAddress expiry now blockNum : Nat) : Nat :=
  keccakModel [executor, target, selector, maxValue, maxTokenAmount,
    tokenAddress, expiry, now, blockNum]

/-- The execution id derivation of `executeWithPermission`:
`keccak256(abi.encodePacked(msg.sender, target, data, value,
block.timestamp, block.number))`. -/
def execIdHash (sender target : Nat) (data : List Nat) (value now blockNum : Nat) : Nat :=
  keccakModel ([sender, target] ++ data ++ [value, now, blockNum])

/-- The execution id derivation of `executeTokenTransfer`:
`keccak256(abi.encodePacked(msg.sender, tokenAddress, to, amount,
block.timestamp))`. -/
def tokenExecIdHash (sender tokenAddress recipient amount now : Nat) : Nat :=
  keccakModel [sender, tokenAddress, recipient, amount, now]

/-- The selector of `transfer(address,uint256)`, the constant
`bytes4(keccak256("transfer(address,uint256)"))` = `0xa9059cbb`. -/
def transferSelector : Nat := 0xa9059cbb

/-- The calldata built by `abi.encodeWithSignature("transfer(address,uint256)", to, amount)`. -/
def encodeTransferCall (recipient amount : Nat) : List Nat :=
  [0xa9, 0x05, 0x9c, 0xbb] ++ word32 recipient ++ word32 amount

/-- The `Permission` struct of `HypnosExecutor.sol`. -/
structure Permission where
  target : Nat
  selector : Nat
  maxValue : Nat
  maxTokenAmount : Nat
  tokenAddress : Nat
  expiry : Nat
  active : Bool
  deriving DecidableEq, Repr

/-- The all-zero record an EVM storage mapping yields for an absent key. -/
def Permission.zero : Permission :=
  { target := 0, selector := 0, maxValue := 0, maxTokenAmount := 0,
    tokenAddress := 0, expiry := 0, active := false }

/-- The `ExecutionRecord` struct of `HypnosExecutor.sol`. -/
structure ExecutionRecord where
  executor : Nat
  target : Nat
  selector : Nat
  value : Nat
  data : List Nat
  timestamp : Nat
  permissionId : Nat
  success : Bool
  reason : String
  deriving DecidableEq, Repr

/-- The events emitted by `HypnosExecutor.sol`, in emission order. -/
inductive LEvent where
  | permissionGranted (user pid target selector maxValue maxTokenAmount
      tokenAddress expiry : Nat)
  | permissionRevoked (user pid : Nat)
  | permissionUsed (user pid eid target selector value : Nat) (success : Bool)
  | executionRecorded (eid executor target selector value pid : Nat)
      (success : Bool) (reason : String)
  deriving DecidableEq, Repr

/-- The storage of `HypnosExecutor` plus its emitted event log: the
`permissions` and `userPermissions` mappings, the `executions` mapping, and
the `executionHistory` array. -/
structure LState where
  permissions : Nat → Nat → Permission
  userPermissions : Nat → List Nat
  executions : Nat → Option ExecutionRecord
  executionHistory : List Nat
  events : List LEvent

/-- The empty ledger: every mapping at its zero default, no history, no events. -/
def LState.empty : LState :=
  { permissions := fun _ _ => Permission.zero
    userPermissions := fun _ => []
    executions := fun _ => none
    executionHistory := []
    events := [] }

/-- Failure modes of `grantPermission` (its two `require` clauses). -/
inductive GrantErr where
  | invalidTarget
  | expiredGrant
  deriving DecidableEq, Repr

/-- The six gate failures of `executeWithPermission`, one per `require`,
in source order. -/
inductive GateErr where
  | notFound
  | inactive
  | targetMismatch
  | expired
  | selectorMismatch
  | valueExceeded
  deriving DecidableEq, Repr

/-- Failure modes of the execution paths: the six gate failures, the revert
of `abi.decode` inside `_extractRevertReason` on malformed return data, and
the token-path failures of `executeTokenTransfer`. -/
inductive ExecErr where
  | gate (g : GateErr)
  | decodeRevert
  | tokenMismatch
  | amountExceeded
  | transferFailed
  deriving DecidableEq, Repr

/-- The decoding step of `_extractRevertReason` on data that starts with the
`Error(string)` selector: the source advances the memory pointer of
`returnData` past the 4-byte selector and calls `abi.decode(..., (string))`.
The decoder reads a head word as the offset, rejects offsets and lengths of
2^64 or more by reverting (modelled as `none`, the revert of the generated
ABI decoder), and otherwise reads a length word and that many content bytes.
Reads past the end of the copied return data are modelled as truncation; the
theorems below exercise only in-range encodings and the out-of-range-offset
revert. -/
def decodeErrorString (returnData : List Nat) : Option String :=
  let body := returnData.drop 4
  let off := beNat (body.take 32)
  if off < 2 ^ 64 then
    let len := beNat ((body.drop off).take 32)
    if len < 2 ^ 64 then
      some (stringOfBytes ((body.drop (off + 32)).take len))
    else none
  else none

/-- The function `_extractRevertReason` of `HypnosExecutor.sol`: empty data
gives "unknown error"; data of length at least 68 whose first four bytes are
the `Error(string)` selector `0x08c379a0` is ABI-decoded (`none` when that
decoding reverts); everything else gives "execution reverted". -/
def extractRevertReason (returnData : List Nat) : Option String :=
  if returnData.length = 0 then
    some "unknown error"
  else if 68 ≤ returnData.length ∧ returnData.take 4 = [0x08, 0xc3, 0x79, 0xa0] then
    decodeErrorString returnData
  else
    some "execution reverted"

/-- The function `grantPermission` of `HypnosExecutor.sol`.  The caller
`_sender` is taken as an argument but, as in the source, is never consulted:
no role or identity check restricts who may grant.  On success it returns
the new state and the derived permission id. -/
def grantPermission (st : LState) (_sender executor target selector maxValue
    maxTokenAmount tokenAddress expiry now blockNum : Nat) :
    Except GrantErr (LState × Nat) :=
  if target = 0 then
    .error .invalidTarget
  else if expiry = 0 ∨ now < expiry then
    let pid := permIdHash executor target selector maxValue maxTokenAmount
      tokenAddress expiry now blockNum
    .ok ({ st with
      permissions := fun s i =>
        if s = executor ∧ i = pid then
          { target := target, selector := selector, maxValue := maxValue,
            maxTokenAmount := maxTokenAmount, tokenAddress := tokenAddress,
            expiry := expiry, active := true }
        else st.permissions s i
      userPermissions := fun s =>
        if s = executor then st.userPermissions s ++ [pid]
        else st.userPermissions s
      events := st.events ++ [.permissionGranted executor pid target selector
        maxValue maxTokenAmount tokenAddress expiry] }, pid)
  else
    .error .expiredGrant

/-- The function `revokePermission` of `HypnosExecutor.sol`: the lookup is
scoped to the caller; a record with zero target means not found; otherwise
`active` is set to false and `PermissionRevoked` is emitted, with no check
that the record was still active. -/
def revokePermission (st : LState) (sender pid : Nat) : Except ExecErr LState :=
  let perm := st.permissions sender pid
  if perm.target = 0 then
    .error (.gate .notFound)
  else
    .ok { st with
      permissions := fun s i =>
        if s = sender ∧ i = pid then { perm with active := false }
        else st.permissions s i
      events := st.events ++ [.permissionRevoked sender pid] }

/-- The function `executeWithPermission` of `HypnosExecutor.sol`: the six
gate checks in source order, then the inner call (its outcome is the `inner`
argument), reason extraction, one stored `ExecutionRecord`, one
`executionHistory` entry, and the `ExecutionRecorded` and `PermissionUsed`
events, in that order. -/
def executeWithPermission (st : LState) (sender pid target : Nat)
    (data : List Nat) (value now blockNum : Nat) (inner : Bool × List Nat) :
    Except ExecErr (LState × Bool × List Nat) :=
  let perm := st.permissions sender pid
  if perm.target = 0 then .error (.gate .notFound)
  else if perm.active = false then .error (.gate .inactive)
  else if perm.target ≠ target then .error (.gate .targetMismatch)
  else if ¬ (perm.expiry = 0 ∨ now ≤ perm.expiry) then .error (.gate .expired)
  else if ¬ (perm.selector = 0 ∨ perm.selector = selOf data) then
    .error (.gate .selectorMismatch)
  else if ¬ (value ≤ perm.maxValue) then .error (.gate .valueExceeded)
  else
    let selector := selOf data
    let eid := execIdHash sender target data value now blockNum
    let success := inner.1
    let returnData := inner.2
    match (if success then some "success" else extractRevertReason returnData) with
    | none => .error .decodeRevert
    | some reason =>
      .ok ({ st with
        executions := fun i =>
          if i = eid then
            some { executor := sender, target := target, selector := selector,
                   value := value, data := data, timestamp := now,
                   permissionId := pid, success := success, reason := reason }
          else st.executions i
        executionHistory := st.executionHistory ++ [eid]
        events := st.events ++
          [.executionRecorded eid sender target selector value pid success reason,
           .permissionUsed sender pid eid target selector value success] },
        success, returnData)

/-- The function `executeTokenTransfer` of `HypnosExecutor.sol`: its five
`require` checks in source order, then `safeTransferFrom` (which reverts the
whole operation when the transfer fails, modelled by `transferOk = false`),
then one stored record, one history entry and the two events. -/
def executeTokenTransfer (st : LState) (sender pid tokenAddress recipient amount now : Nat)
    (transferOk : Bool) : Except ExecErr LState :=
  let perm := st.permissions sender pid
  if perm.target = 0 then .error (.gate .notFound)
  else if perm.active = false then .error (.gate .inactive)
  else if perm.tokenAddress ≠ tokenAddress then .error .tokenMismatch
  else if ¬ (amount ≤ perm.maxTokenAmount) then .error .amountExceeded
  else if ¬ (perm.expiry = 0 ∨ now ≤ perm.expiry) then .error (.gate .expired)
  else if transferOk = false then .error .transferFailed
  else
    let eid := tokenExecIdHash sender tokenAddress recipient amount now
    .ok { st with
      executions := fun i =>
        if i = eid then
          some { executor := sender, target := tokenAddress,
                 selector := transferSelector, value := 0,
                 data := encodeTransferCall recipient amount, timestamp := now,
                 permissionId := pid, success := true, reason := "success" }
        else st.executions i
      executionHistory := st.executionHistory ++ [eid]
      events := st.events ++
        [.executionRecorded eid sender tokenAddress transferSelector 0 pid true "success",
         .permissionUsed sender pid eid tokenAddress transferSelector amount true] }

/-- The error reported by `executeWithPermission`, `none` when the call
completes normally. -/
def executeResult (st : LState) (sender pid target : Nat) (data : List Nat)
    (value now blockNum : Nat) (inner : Bool × List Nat) : Option ExecErr :=
  match executeWithPermission st sender pid target data value now blockNum inner with
  | .ok _ => none
  | .error e => some e

/-- The ledger state after `executeWithPermission`: the new state on normal
completion, the unchanged state on revert. -/
def executeState (st : LState) (sender pid target : Nat) (data : List Nat)
    (value now blockNum : Nat) (inner : Bool × List Nat) : LState :=
  match executeWithPermission st sender pid target data value now blockNum inner with
  | .ok (st', _, _) => st'
  | .error _ => st

/-- One top-level invocation against the ledger, with its block context and
the outcome of any inner call supplied as data. -/
inductive Op where
  | grant (sender executor target selector maxValue maxTokenAmount
      tokenAddress expiry now blockNum : Nat)
  | revoke (sender pid : Nat)
  | exec (sender pid target : Nat) (data : List Nat) (value now blockNum : Nat)
      (inner : Bool × List Nat)
  | token (sender pid tokenAddress recipient amount now : Nat) (transferOk : Bool)

/-- Effect of one operation on the ledger: the new state on success, the
unchanged state when the operation reverts. -/
def stepOp (st : LState) : Op → LState
  | .grant s e t sel mv mt ta ex now bn =>
    match grantPermission st s e t sel mv mt ta ex now bn with
    | .ok (st', _) => st'
    | .error _ => st
  | .revoke s pid =>
    match revokePermission st s pid with
    | .ok st' => st'
    | .error _ => st
  | .exec s pid t data v now bn inner => executeState st s pid t data v now bn inner
  | .token s pid ta recipient amount now ok =>
    match executeTokenTransfer st s pid ta recipient amount now ok with
    | .ok st' => st'
    | .error _ => st

/-- A sequence of top-level invocations applied in order. -/
def applyOps (st : LState) (ops : List Op) : LState :=
  ops.foldl stepOp st

/-- Whether a grant operation writes the permission slot `(e, pid)`: its
executor is `e` and its derived permission id is `pid`. -/
def grantHits (e pid : Nat) : Op → Bool
  | .grant _ ex t sel mv mt ta exp now bn =>
    ex = e ∧ permIdHash ex t sel mv mt ta exp now bn = pid
  | _ => false

/-- Modelled from the spec and claim wording of the gate: the six
preconditions of `executeGated`, checked in the stated order, reporting the
earliest violated one — capability exists for the caller, capability active,
capability target equals the call target, capability not expired
(`expiry = 0` or `expiry >= now`), selector wildcard or equal to the leading
selector bytes of the payload, value at most the maximum value. -/
def specFirstFailure (perm : Permission) (target : Nat) (data : List Nat)
    (value now : Nat) : Option GateErr :=
  if perm.target = 0 then some .notFound
  else if perm.active = false then some .inactive
  else if perm.target ≠ target then some .targetMismatch
  else if ¬ (perm.expiry = 0 ∨ now ≤ perm.expiry) then some .expired
  else if ¬ (perm.selector = 0 ∨ perm.selector = selOf data) then some .selectorMismatch
  else if ¬ (value ≤ perm.maxValue) then some .valueExceeded
  else none

/-!
Part 2 models the event reconciler.  The repository contains two handler
sets: the Envio handlers of `src/indexer/src/mapping.ts`
(`HypnosExecutor.PermissionGranted.handler` and friends), and the
graph-ts-style handlers of `src/unnamed/part_002`
(`handlePermissionGranted` and friends).  Both are embedded.

Modelling conventions:
- Entity ids (permission id, execution id, transaction hash) are `Nat`;
  the `toString` and `toLowerCase` normalisations of the TypeScript code
  are identities under this representation.
- Each database table is a function from its key to an optional row;
  `context.X.set` and graph-ts `save` are keyed upserts into that function.
- `undefined` optional fields are `Option.none`.
-/

/-- Block and transaction context attached to every consumed event. -/
structure EvCtx where
  timestamp : Nat
  blockNumber : Nat
  txHash : Nat
  logIndex : Nat
  deriving DecidableEq, Repr

/-- The four `HypnosExecutor` events as consumed by the reconciler, with
their payload fields from the contract event declarations. -/
inductive REvent where
  | granted (ctx : EvCtx) (user pid target selector maxValue maxTokenAmount
      tokenAddress expiry : Nat)
  | revoked (ctx : EvCtx) (user pid : Nat)
  | used (ctx : EvCtx) (user pid eid target selector value : Nat) (success : Bool)
  | execRecorded (ctx : EvCtx) (eid executor target selector value pid : Nat)
      (success : Bool) (reason : String)
  deriving DecidableEq, Repr

/-- The Envio `Permission` entity (row of the `Permission` table), with the
fields set by `mapping.ts`. -/
structure EPermission where
  user : Nat
  target : Nat
  selector : Nat
  maxValue : Nat
  maxTokenAmount : Nat
  tokenAddress : Nat
  expiry : Nat
  active : Bool
  grantedAt : Nat
  grantedAtBlock : Nat
  revokedAt : Option Nat
  revokedAtBlock : Option Nat
  deriving DecidableEq, Repr

/-- The Envio `Execution` entity, with the fields set by
`HypnosExecutor.ExecutionRecorded.handler` (the `data` field is set to the
empty string there; it is omitted as constant). -/
structure EExecution where
  executor : Nat
  target : Nat
  selector : Nat
  value : Nat
  timestamp : Nat
  blockNumber : Nat
  transactionHash : Nat
  permissionId : Nat
  success : Bool
  reason : String
  deriving DecidableEq, Repr

/-- The Envio `PermissionGrantedEvent` audit row. -/
structure EGrantedRow where
  user : Nat
  permissionId : Nat
  target : Nat
  selector : Nat
  maxValue : Nat
  maxTokenAmount : Nat
  tokenAddress : Nat
  expiry : Nat
  timestamp : Nat
  blockNumber : Nat
  transactionHash : Nat
  deriving DecidableEq, Repr

/-- The Envio `PermissionRevokedEvent` audit row. -/
structure ERevokedRow where
  user : Nat
  permissionId : Nat
  timestamp : Nat
  blockNumber : Nat
  transactionHash : Nat
  deriving DecidableEq, Repr

/-- The Envio `PermissionUsedEvent` audit row. -/
structure EUsedRow where
  user : Nat
  permissionId : Nat
  executionId : Nat
  target : Nat
  selector : Nat
  value : Nat
  success : Bool
  timestamp : Nat
  blockNumber : Nat
  transactionHash : Nat
  deriving DecidableEq, Repr

/-- The Envio read-side mirror: the `Permission` and `Execution` tables keyed
by their stable ids, and the three audit-event tables keyed by
(transaction hash, log index). -/
structure EnvioMirror where
  permission : Nat → Option EPermission
  execution : Nat → Option EExecution
  grantedEvents : Nat × Nat → Option EGrantedRow
  revokedEvents : Nat × Nat → Option ERevokedRow
  usedEvents : Nat × Nat → Option EUsedRow

/-- The empty Envio mirror. -/
def EnvioMirror.empty : EnvioMirror :=
  { permission := fun _ => none
    execution := fun _ => none
    grantedEvents := fun _ => none
    revokedEvents := fun _ => none
    usedEvents := fun _ => none }

/-- One keyed upsert into a table, the effect of `context.X.set`. -/
def kvSet {κ υ : Type} [DecidableEq κ] (t : κ → Option υ) (k : κ) (v : υ) :
    κ → Option υ :=
  fun j => if j = k then some v else t j

/-- The Envio handlers of `mapping.ts`, one event at a time:
`PermissionGranted` upserts a fresh `Permission` row (active, no revocation
fields) and a `PermissionGrantedEvent` audit row; `PermissionRevoked`
updates the `Permission` row to inactive when it exists (and skips the
update when it does not) and always inserts its audit row; `PermissionUsed`
inserts only its audit row; `ExecutionRecorded` upserts the `Execution` row
from the event payload unconditionally, with no lookup of the referenced
permission. -/
def envioApply (m : EnvioMirror) : REvent → EnvioMirror
  | .granted ctx user pid target selector maxValue maxTokenAmount tokenAddress expiry =>
    let perm : EPermission :=
      { user := user, target := target, selector := selector,
        maxValue := maxValue, maxTokenAmount := maxTokenAmount,
        tokenAddress := tokenAddress, expiry := expiry, active := true,
        grantedAt := ctx.timestamp, grantedAtBlock := ctx.blockNumber,
        revokedAt := none, revokedAtBlock := none }
    let row : EGrantedRow :=
      { user := user, permissionId := pid, target := target,
        selector := selector, maxValue := maxValue,
        maxTokenAmount := maxTokenAmount, tokenAddress := tokenAddress,
        expiry := expiry, timestamp := ctx.timestamp,
        blockNumber := ctx.blockNumber, transactionHash := ctx.txHash }
    { m with
      permission := kvSet m.permission pid perm
      grantedEvents := kvSet m.grantedEvents (ctx.txHash, ctx.logIndex) row }
  | .revoked ctx user pid =>
    let row : ERevokedRow :=
      { user := user, permissionId := pid, timestamp := ctx.timestamp,
        blockNumber := ctx.blockNumber, transactionHash := ctx.txHash }
    let permission :=
      match m.permission pid with
      | some p => kvSet m.permission pid
          { p with active := false, revokedAt := some ctx.timestamp,
                   revokedAtBlock := some ctx.blockNumber }
      | none => m.permission
    { m with
      permission := permission
      revokedEvents := kvSet m.revokedEvents (ctx.txHash, ctx.logIndex) row }
  | .used ctx user pid eid target selector value success =>
    let row : EUsedRow :=
      { user := user, permissionId := pid, executionId := eid,
        target := target, selector := selector, value := value,
        success := success, timestamp := ctx.timestamp,
        blockNumber := ctx.blockNumber, transactionHash := ctx.txHash }
    { m with usedEvents := kvSet m.usedEvents (ctx.txHash, ctx.logIndex) row }
  | .execRecorded ctx eid executor target selector value pid success reason =>
    let row : EExecution :=
      { executor := executor, target := target, selector := selector,
        value := value, timestamp := ctx.timestamp,
        blockNumber := ctx.blockNumber, transactionHash := ctx.txHash,
        permissionId := pid, success := success, reason := reason }
    { m with execution := kvSet m.execution eid row }

/-- A stream of events applied to the Envio mirror in arrival order. -/
def envioApplyStream (m : EnvioMirror) (s : List REvent) : EnvioMirror :=
  s.foldl envioApply m

/-- The `Permission` entity of `src/unnamed/part_002`, with exactly the
fields those handlers set (`new Permission(id)` leaves the rest unset). -/
structure GPermission where
  user : Nat
  active : Bool
  grantedAt : Nat
  grantedAtBlock : Nat
  revokedAt : Option Nat
  revokedAtBlock : Option Nat
  deriving DecidableEq, Repr

/-- The `Execution` entity of `src/unnamed/part_002`: `permission` holds the
id of the linked `Permission` row. -/
structure GExecution where
  executor : Nat
  permission : Nat
  permissionId : Nat
  timestamp : Nat
  blockNumber : Nat
  transactionHash : Nat
  deriving DecidableEq, Repr

/-- The audit rows of `src/unnamed/part_002` (granted and revoked share one
shape; the used row also stores the execution id). -/
structure GEventRow where
  user : Nat
  permissionId : Nat
  timestamp : Nat
  blockNumber : Nat
  transactionHash : Nat
  deriving DecidableEq, Repr

/-- The `PermissionUsedEvent` audit row of `src/unnamed/part_002`. -/
structure GUsedRow where
  user : Nat
  permissionId : Nat
  executionId : Nat
  timestamp : Nat
  blockNumber : Nat
  transactionHash : Nat
  deriving DecidableEq, Repr

/-- The mirror maintained by the `src/unnamed/part_002` handlers. -/
structure P2Mirror where
  permission : Nat → Option GPermission
  execution : Nat → Option GExecution
  grantedEvents : Nat × Nat → Option GEventRow
  revokedEvents : Nat × Nat → Option GEventRow
  usedEvents : Nat × Nat → Option GUsedRow

/-- The empty part_002 mirror. -/
def P2Mirror.empty : P2Mirror :=
  { permission := fun _ => none
    execution := fun _ => none
    grantedEvents := fun _ => none
    revokedEvents := fun _ => none
    usedEvents := fun _ => none }

/-- The handlers of `src/unnamed/part_002`, one event at a time.
`handleExecutionRecorded` first loads the referenced `Permission` row and
returns without writing anything when it is absent; when it is present the
`Execution` row is saved with `execution.permission = permission.id`. -/
def p2Apply (m : P2Mirror) : REvent → P2Mirror
  | .granted ctx user pid _target _selector _maxValue _maxTokenAmount _tokenAddress _expiry =>
    let perm : GPermission :=
      { user := user, active := true, grantedAt := ctx.timestamp,
        grantedAtBlock := ctx.blockNumber, revokedAt := none,
        revokedAtBlock := none }
    let row : GEventRow :=
      { user := user, permissionId := pid, timestamp := ctx.timestamp,
        blockNumber := ctx.blockNumber, transactionHash := ctx.txHash }
    { m with
      permission := kvSet m.permission pid perm
      grantedEvents := kvSet m.grantedEvents (ctx.txHash, ctx.logIndex) row }
  | .revoked ctx user pid =>
    let row : GEventRow :=
      { user := user, permissionId := pid, timestamp := ctx.timestamp,
        blockNumber := ctx.blockNumber, transactionHash := ctx.txHash }
    let permission :=
      match m.permission pid with
      | some p => kvSet m.permission pid
          { p with active := false, revokedAt := some ctx.timestamp,
                   revokedAtBlock := some ctx.blockNumber }
      | none => m.permission
    { m with
      permission := permission
      revokedEvents := kvSet m.revokedEvents (ctx.txHash, ctx.logIndex) row }
  | .used ctx user pid eid _target _selector _value _success =>
    let row : GUsedRow :=
      { user := user, permissionId := pid, executionId := eid,
        timestamp := ctx.timestamp, blockNumber := ctx.blockNumber,
        transactionHash := ctx.txHash }
    { m with usedEvents := kvSet m.usedEvents (ctx.txHash, ctx.logIndex) row }
  | .execRecorded ctx eid executor _target _selector _value pid _success _reason =>
    match m.permission pid with
    | none => m
    | some _ =>
      let row : GExecution :=
        { executor := executor, permission := pid, permissionId := pid,
          timestamp := ctx.timestamp, blockNumber := ctx.blockNumber,
          transactionHash := ctx.txHash }
      { m with execution := kvSet m.execution eid row }

/-- A stream of events applied to the part_002 mirror in arrival order. -/
def p2ApplyStream (m : P2Mirror) (s : List REvent) : P2Mirror :=
  s.foldl p2Apply m

/-!
Part 3: per-key replay views of the Envio tables, used to reason about
stream idempotence.  Each table of the mirror is described, key by key, by
the list of operations the stream performs on that key.
-/

/-- Overwriting fold: each value in the list replaces the current one.  This
is the per-key behaviour of every table whose rows are built purely from the
event payload. -/
def constFold {υ : Type} (x : Option υ) (vs : List υ) : Option υ :=
  vs.foldl (fun _ v => some v) x

/-- The operations the Envio handlers perform on one `Permission` key: a
grant overwrites the row with a fresh value; a revocation updates the row in
place when present. -/
inductive PermOp where
  | g (ctx : EvCtx) (user target selector maxValue maxTokenAmount
      tokenAddress expiry : Nat)
  | r (ctx : EvCtx)
  deriving DecidableEq, Repr

/-- The row written by a grant operation. -/
def grantRow (ctx : EvCtx) (user target selector maxValue maxTokenAmount
    tokenAddress expiry : Nat) : EPermission :=
  { user := user, target := target, selector := selector,
    maxValue := maxValue, maxTokenAmount := maxTokenAmount,
    tokenAddress := tokenAddress, expiry := expiry, active := true,
    grantedAt := ctx.timestamp, grantedAtBlock := ctx.blockNumber,
    revokedAt := none, revokedAtBlock := none }

/-- The in-place update a revocation applies to a present row. -/
def revP (ctx : EvCtx) (p : EPermission) : EPermission :=
  { p with active := false, revokedAt := some ctx.timestamp,
           revokedAtBlock := some ctx.blockNumber }

/-- One per-key operation on a `Permission` slot. -/
def permStep (x : Option EPermission) : PermOp → Option EPermission
  | .g ctx u t s mv mt ta ex => some (grantRow ctx u t s mv mt ta ex)
  | .r ctx =>
    match x with
    | some p => some (revP ctx p)
    | none => none

/-- A list of per-key operations applied in order. -/
def permFold (x : Option EPermission) (σ : List PermOp) : Option EPermission :=
  σ.foldl permStep x

/-- Whether a per-key operation is a grant. -/
def PermOp.isG : PermOp → Bool
  | .g _ _ _ _ _ _ _ _ => true
  | .r _ => false

/-- Whether a per-key operation list contains a grant. -/
def hasG (σ : List PermOp) : Bool := σ.any PermOp.isG

/-- The operations a stream performs on the `Permission` key `k`. -/
def permTrace (k : Nat) (s : List REvent) : List PermOp :=
  s.filterMap fun e =>
    match e with
    | .granted ctx u pid t sel mv mt ta ex =>
      if pid = k then some (.g ctx u t sel mv mt ta ex) else none
    | .revoked ctx _ pid => if pid = k then some (.r ctx) else none
    | _ => none

/-- The `Execution` rows a stream writes at key `k` (Envio handlers). -/
def execWritesAt (k : Nat) (s : List REvent) : List EExecution :=
  s.filterMap fun e =>
    match e with
    | .execRecorded ctx eid executor target selector value pid success reason =>
      if eid = k then
        some { executor := executor, target := target, selector := selector,
               value := value, timestamp := ctx.timestamp,
               blockNumber := ctx.blockNumber, transactionHash := ctx.txHash,
               permissionId := pid, success := success, reason := reason }
      else none
    | _ => none

/-- The `PermissionGrantedEvent` rows a stream writes at key `k`. -/
def grantedWritesAt (k : Nat × Nat) (s : List REvent) : List EGrantedRow :=
  s.filterMap fun e =>
    match e with
    | .granted ctx user pid target selector maxValue maxTokenAmount tokenAddress expiry =>
      if (ctx.txHash, ctx.logIndex) = k then
        some { user := user, permissionId := pid, target := target,
               selector := selector, maxValue := maxValue,
               maxTokenAmount := maxTokenAmount, tokenAddress := tokenAddress,
               expiry := expiry, timestamp := ctx.timestamp,
               blockNumber := ctx.blockNumber, transactionHash := ctx.txHash }
      else none
    | _ => none

/-- The `PermissionRevokedEvent` rows a stream writes at key `k`. -/
def revokedWritesAt (k : Nat × Nat) (s : List REvent) : List ERevokedRow :=
  s.filterMap fun e =>
    match e with
    | .revoked ctx user pid =>
      if (ctx.txHash, ctx.logIndex) = k then
        some { user := user, permissionId := pid, timestamp := ctx.timestamp,
               blockNumber := ctx.blockNumber, transactionHash := ctx.txHash }
      else none
    | _ => none

/-- The `PermissionUsedEvent` rows a stream writes at key `k`. -/
def usedWritesAt (k : Nat × Nat) (s : List REvent) : List EUsedRow :=
  s.filterMap fun e =>
    match e with
    | .used ctx user pid eid target selector value success =>
      if (ctx.txHash, ctx.logIndex) = k then
        some { user := user, permissionId := pid, executionId := eid,
               target := target, selector := selector, value := value,
               success := success, timestamp := ctx.timestamp,
               blockNumber := ctx.blockNumber, transactionHash := ctx.txHash }
      else none
    | _ => none

/-!
Part 4: concrete fixtures used to evaluate the model at specific inputs.
-/

/-- A permission for executor 1 under id 5: target 2, wildcard selector,
maximum value 100, no token rail, no expiry, active. -/
def permA : Permission :=
  { target := 2, selector := 0, maxValue := 100, maxTokenAmount := 0,
    tokenAddress := 0, expiry := 0, active := true }

/-- A ledger holding `permA` at `(1, 5)` and nothing else. -/
def stA : LState :=
  { LState.empty with
    permissions := fun s i => if s = 1 ∧ i = 5 then permA else Permission.zero }

/-- A ledger holding the variant of `permA` with expiry 100 at `(1, 5)`. -/
def stE : LState :=
  { LState.empty with
    permissions := fun s i =>
      if s = 1 ∧ i = 5 then { permA with expiry := 100 } else Permission.zero }

/-- Return data of length 68 that starts with the `Error(string)` selector
but whose offset word is 2^256 - 1: `abi.decode` reverts on it. -/
def badErrorData : List Nat :=
  [0x08, 0xc3, 0x79, 0xa0] ++ List.replicate 32 255 ++ List.replicate 32 0

/-- Canonical `Error(string)` return data for a message given as bytes:
selector, offset word 32, length word, contents. -/
def errorReturnData (msg : List Nat) : List Nat :=
  [0x08, 0xc3, 0x79, 0xa0] ++ word32 32 ++ word32 msg.length ++ msg

/-- An `ExecutionRecorded` event whose referenced permission id is 5 and
whose execution id is 7. -/
def orphanExec : REvent :=
  .execRecorded { timestamp := 10, blockNumber := 1, txHash := 100, logIndex := 0 }
    7 1 2 0 0 5 true "success"

/-- An event stream in which an `ExecutionRecorded` event precedes the grant
of its referenced permission (a causality violation that the ledger never
produces but a test may inject). -/
def cexStream : List REvent :=
  [orphanExec,
   .granted { timestamp := 11, blockNumber := 2, txHash := 101, logIndex := 0 }
     1 5 2 0 100 0 0 0]

/-- A grant operation: sender 9, executor 1, target 2, wildcard selector,
maximum value 100, no token rail, no expiry, at timestamp 10 in block 3. -/
def regrantOp : Op := Op.grant 9 1 2 0 100 0 0 0 10 3

/-- The permission id `regrantOp` derives.  Granting the same parameters in
the same block reproduces it. -/
def regrantPid : Nat := permIdHash 1 2 0 100 0 0 0 10 3

/-- A part_002 mirror holding one permission row under id 5. -/
def p2WithPerm : P2Mirror :=
  { P2Mirror.empty with
    permission := fun i =>
      if i = 5 then
        some { user := 1, active := true, grantedAt := 10, grantedAtBlock := 1,
               revokedAt := none, revokedAtBlock := none }
      else none }

/-!
Part 5: theorems.  Helper lemmas come first, then one theorem per claim,
with witnesses and counterexamples.
-/

theorem specFirstFailure_none_iff (p : Permission) (t : Nat) (d : List Nat) (v n : Nat) :
    specFirstFailure p t d v n = none ↔
      (p.target ≠ 0 ∧ p.active = true ∧ p.target = t ∧
       (p.expiry = 0 ∨ n ≤ p.expiry) ∧ (p.selector = 0 ∨ p.selector = selOf d) ∧
       v ≤ p.maxValue) := by
  unfold specFirstFailure
  split_ifs <;> simp_all

/-- C1: `executeWithPermission` reports the gate failure `g` exactly when `g`
is the earliest violated precondition in the order stated by the spec:
capability exists for the caller (`notFound`), capability active
(`inactive`), capability target equals the call target (`targetMismatch`),
capability not expired (`expired`), selector wildcard or equal to the
leading payload bytes (`selectorMismatch`), value at most the maximum value
(`valueExceeded`).  `specFirstFailure` is written from the spec wording;
the equivalence holds for every state, argument list and inner-call
outcome, so when several preconditions are violated at once the reported
failure is the earliest in this order. -/
theorem c1_gate_failure_order (st : LState) (sender pid target : Nat)
    (data : List Nat) (value now blockNum : Nat) (inner : Bool × List Nat)
    (g : GateErr) :
    executeResult st sender pid target data value now blockNum inner = some (.gate g) ↔
      specFirstFailure (st.permissions sender pid) target data value now = some g := by
  simp only [executeResult, executeWithPermission, specFirstFailure]
  split_ifs <;> try simp
  rcases hr : extractRevertReason inner.2 with _ | r <;> simp [hr]

/-- C3: when the first five gate checks pass and the value strictly exceeds
the maximum value of the capability, `executeWithPermission` fails with
`valueExceeded` and the ledger is unchanged: same permissions, no new
execution record, same execution history, no event. -/
theorem c3_value_exceeded_no_effect (st : LState) (sender pid target : Nat)
    (data : List Nat) (value now blockNum : Nat) (inner : Bool × List Nat)
    (h1 : (st.permissions sender pid).target ≠ 0)
    (h2 : (st.permissions sender pid).active = true)
    (h3 : (st.permissions sender pid).target = target)
    (h4 : (st.permissions sender pid).expiry = 0 ∨ now ≤ (st.permissions sender pid).expiry)
    (h5 : (st.permissions sender pid).selector = 0 ∨
          (st.permissions sender pid).selector = selOf data)
    (h6 : (st.permissions sender pid).maxValue < value) :
    executeResult st sender pid target data value now blockNum inner =
      some (.gate .valueExceeded) ∧
    executeState st sender pid target data value now blockNum inner = st := by
  unfold executeResult executeState executeWithPermission
  rw [if_neg (by simpa using h1), if_neg (by simp [h2]), if_neg (by simp [h3]),
    if_neg (not_not_intro h4), if_neg (not_not_intro h5),
    if_pos (by simpa using Nat.not_le.mpr h6)]
  exact ⟨rfl, rfl⟩

/-- Witness for C3 at a concrete input: on `stA` a call with value 101 and
every other check passing fails with `valueExceeded` and leaves the state
untouched. -/
theorem c3_witness :
    executeResult stA 1 5 2 [] 101 10 0 (true, []) = some (.gate .valueExceeded) ∧
    executeState stA 1 5 2 [] 101 10 0 (true, []) = stA :=
  c3_value_exceeded_no_effect stA 1 5 2 [] 101 10 0 (true, [])
    (by decide) (by decide) (by decide) (by decide) (by decide) (by decide)

/-- C4 (amended): for a capability with non-zero expiry `E`, a call at time
strictly after `E` fails with `expired` whenever the three earlier checks
pass, and a call at any time up to and including `E` is never blocked by the
expiry check.  The original claim said a call at time `>= E` fails; the
source accepts `expiry >= block.timestamp`, so a call at exactly `E`
passes (see the counterexample). -/
theorem c4_expiry_boundary (st : LState) (sender pid target : Nat)
    (data : List Nat) (value now blockNum : Nat) (inner : Bool × List Nat)
    (hE : (st.permissions sender pid).expiry ≠ 0) :
    ((st.permissions sender pid).target ≠ 0 →
     (st.permissions sender pid).active = true →
     (st.permissions sender pid).target = target →
     (st.permissions sender pid).expiry < now →
       executeResult st sender pid target data value now blockNum inner =
         some (.gate .expired)) ∧
    (now ≤ (st.permissions sender pid).expiry →
       executeResult st sender pid target data value now blockNum inner ≠
         some (.gate .expired)) := by
  constructor
  · intro h1 h2 h3 hlt
    unfold executeResult executeWithPermission
    rw [if_neg (by simpa using h1), if_neg (by simp [h2]), if_neg (by simp [h3]),
      if_pos (by simp [hE, Nat.not_le.mpr hlt])]
  · intro hle
    simp only [executeResult, executeWithPermission]
    split_ifs <;> try simp_all
    rcases hr : extractRevertReason inner.2 with _ | r <;> simp [hr]

/-- Witness for C4 at concrete inputs: on `stE` (expiry 100) a call at time
101 fails with `expired`, and a call at time 99 is not blocked by the expiry
check. -/
theorem c4_witness :
    executeResult stE 1 5 2 [] 0 101 0 (true, []) = some (.gate .expired) ∧
    executeResult stE 1 5 2 [] 0 99 0 (true, []) ≠ some (.gate .expired) :=
  ⟨(c4_expiry_boundary stE 1 5 2 [] 0 101 0 (true, []) (by decide)).1
      (by decide) (by decide) (by decide) (by decide),
   (c4_expiry_boundary stE 1 5 2 [] 0 99 0 (true, []) (by decide)).2 (by decide)⟩

/-- Counterexample to C4 as stated: on `stE` the capability has expiry 100,
and a call at time exactly 100 passes every check and completes normally
instead of failing with `expired`. -/
theorem c4_counterexample :
    (stE.permissions 1 5).expiry = 100 ∧
    executeResult stE 1 5 2 [] 0 100 0 (true, []) = none := by
  exact ⟨rfl, rfl⟩

/-- C10: granting is permissionless.  For every caller `sender`, whenever the
target is non-null and the expiry is zero or in the future, `grantPermission`
succeeds and stores an active capability for the named executor, with no
access-control check on the caller: the conclusion holds for every `sender`
uniformly, and the model of the source never consults it (no role check
appears in the source function). -/
theorem c10_grant_permissionless (st : LState) (sender executor target selector
    maxValue maxTokenAmount tokenAddress expiry now blockNum : Nat)
    (ht : target ≠ 0) (he : expiry = 0 ∨ now < expiry) :
    ∃ st', grantPermission st sender executor target selector maxValue
        maxTokenAmount tokenAddress expiry now blockNum =
      .ok (st', permIdHash executor target selector maxValue maxTokenAmount
        tokenAddress expiry now blockNum) ∧
      st'.permissions executor (permIdHash executor target selector maxValue
        maxTokenAmount tokenAddress expiry now blockNum) =
        { target := target, selector := selector, maxValue := maxValue,
          maxTokenAmount := maxTokenAmount, tokenAddress := tokenAddress,
          expiry := expiry, active := true } ∧
      st'.events = st.events ++ [.permissionGranted executor
        (permIdHash executor target selector maxValue maxTokenAmount
          tokenAddress expiry now blockNum) target selector maxValue
        maxTokenAmount tokenAddress expiry] := by
  unfold grantPermission
  rw [if_neg ht, if_pos he]
  exact ⟨_, rfl, by simp, rfl⟩

/-- Witness for C10 at a concrete input: caller 99, who holds no role and is
neither the executor nor the target, successfully grants an active
capability to executor 1. -/
theorem c10_witness :
    ∃ st', grantPermission LState.empty 99 1 2 0 100 0 0 0 10 3 =
      .ok (st', permIdHash 1 2 0 100 0 0 0 10 3) ∧
      st'.permissions 1 (permIdHash 1 2 0 100 0 0 0 10 3) =
        { target := 2, selector := 0, maxValue := 100, maxTokenAmount := 0,
          tokenAddress := 0, expiry := 0, active := true } ∧
      st'.events = LState.empty.events ++
        [.permissionGranted 1 (permIdHash 1 2 0 100 0 0 0 10 3) 2 0 100 0 0 0] :=
  c10_grant_permissionless LState.empty 99 1 2 0 100 0 0 0 10 3
    (by decide) (by decide)

/-- C8 (amended): `revokePermission` fails with `notFound` exactly when the
caller has no record under the id; whenever the caller still owns a non-null
record — in particular on a second revoke of an already revoked capability —
the call succeeds, the permission state change is a no-op (`active` is set
to false again) and a `PermissionRevoked` event IS emitted again.  The
original claim said the second revoke does not re-emit; the source emits
unconditionally after the existence check (see the counterexample). -/
theorem c8_revoke_behavior (st : LState) (sender pid : Nat) :
    ((st.permissions sender pid).target = 0 →
      revokePermission st sender pid = .error (.gate .notFound)) ∧
    ((st.permissions sender pid).target ≠ 0 →
      ∃ st', revokePermission st sender pid = .ok st' ∧
        st'.events = st.events ++ [.permissionRevoked sender pid] ∧
        st'.permissions sender pid = { st.permissions sender pid with active := false } ∧
        (∀ s i, ¬ (s = sender ∧ i = pid) → st'.permissions s i = st.permissions s i) ∧
        st'.executions = st.executions ∧
        st'.executionHistory = st.executionHistory) := by
  constructor
  · intro h
    unfold revokePermission
    rw [if_pos h]
  · intro h
    unfold revokePermission
    rw [if_neg h]
    refine ⟨_, rfl, rfl, by simp, fun s i hni => by simp [hni], rfl, rfl⟩

/-- Witness for C8 at concrete inputs: on `stA`, revoking id 5 as caller 1
succeeds with one event; revoking id 9 as caller 2, who has no record there,
fails with `notFound`. -/
theorem c8_witness :
    (∃ st', revokePermission stA 1 5 = .ok st' ∧
        st'.events = stA.events ++ [.permissionRevoked 1 5] ∧
        st'.permissions 1 5 = { stA.permissions 1 5 with active := false } ∧
        (∀ s i, ¬ (s = 1 ∧ i = 5) → st'.permissions s i = stA.permissions s i) ∧
        st'.executions = stA.executions ∧
        st'.executionHistory = stA.executionHistory) ∧
    revokePermission stA 2 9 = .error (.gate .notFound) :=
  ⟨(c8_revoke_behavior stA 1 5).2 (by decide),
   (c8_revoke_behavior stA 2 9).1 (by decide)⟩

/-- Counterexample to C8 as stated: after revoking id 5 on `stA` once, the
capability is inactive; a second revoke by the same grantee succeeds and the
event log then holds TWO `PermissionRevoked` events — the second call
re-emits, contrary to the claim. -/
theorem c8_counterexample :
    ((stepOp stA (Op.revoke 1 5)).permissions 1 5).active = false ∧
    (∃ st2, revokePermission (stepOp stA (Op.revoke 1 5)) 1 5 = .ok st2 ∧
      st2.events = [.permissionRevoked 1 5, .permissionRevoked 1 5]) :=
  ⟨rfl, ⟨_, rfl, rfl⟩⟩

/-- C2 (amended): whenever every gate check passes and the reason extraction
yields a reason — that is, on every successful inner call, and on every
failed inner call whose return data the extraction routine can handle —
`executeWithPermission` returns normally and appends exactly one execution
record, exactly one history entry, and exactly the two events
`ExecutionRecorded` then `PermissionUsed`, for failed inner calls just as
for successful ones.  The original claim asserted this for every failed
inner call; when the failure return data has length at least 68, starts
with the `Error(string)` selector and is malformed, `abi.decode` inside
`_extractRevertReason` reverts the outer call instead (see the
counterexample). -/
theorem c2_record_and_events (st : LState) (sender pid target : Nat)
    (data : List Nat) (value now blockNum : Nat) (success : Bool)
    (rd : List Nat) (reason : String)
    (hpass : specFirstFailure (st.permissions sender pid) target data value now = none)
    (hreason : (if success = true then some "success" else extractRevertReason rd) =
      some reason) :
    executeWithPermission st sender pid target data value now blockNum (success, rd) =
      .ok ({ st with
        executions := fun i =>
          if i = execIdHash sender target data value now blockNum then
            some { executor := sender, target := target, selector := selOf data,
                   value := value, data := data, timestamp := now,
                   permissionId := pid, success := success, reason := reason }
          else st.executions i
        executionHistory := st.executionHistory ++
          [execIdHash sender target data value now blockNum]
        events := st.events ++
          [.executionRecorded (execIdHash sender target data value now blockNum)
             sender target (selOf data) value pid success reason,
           .permissionUsed sender pid (execIdHash sender target data value now blockNum)
             target (selOf data) value success] }, success, rd) := by
  obtain ⟨h1, h2, h3, h4, h5, h6⟩ := (specFirstFailure_none_iff _ _ _ _ _).mp hpass
  simp only [executeWithPermission]
  rw [if_neg (by simpa using h1), if_neg (by simp [h2]), if_neg (by simp [h3]),
    if_neg (not_not_intro h4), if_neg (not_not_intro h5), if_neg (not_not_intro h6)]
  simp only [hreason]

/-- Witness for C2 at a concrete input with a FAILED inner call: every check
passes, the inner call fails with empty return data, and the call returns
normally having appended one record, one history entry and the two events
with reason "unknown error". -/
theorem c2_witness :
    executeWithPermission stA 1 5 2 [] 0 10 0 (false, []) =
      .ok ({ stA with
        executions := fun i =>
          if i = execIdHash 1 2 [] 0 10 0 then
            some { executor := 1, target := 2, selector := selOf [],
                   value := 0, data := [], timestamp := 10,
                   permissionId := 5, success := false, reason := "unknown error" }
          else stA.executions i
        executionHistory := stA.executionHistory ++ [execIdHash 1 2 [] 0 10 0]
        events := stA.events ++
          [.executionRecorded (execIdHash 1 2 [] 0 10 0) 1 2 (selOf []) 0 5 false
             "unknown error",
           .permissionUsed 1 5 (execIdHash 1 2 [] 0 10 0) 2 (selOf []) 0 false] },
        false, []) :=
  c2_record_and_events stA 1 5 2 [] 0 10 0 false [] "unknown error"
    (by decide) (by decide)

/-- Counterexample to C2 as stated: on `stA` every gate check passes, the
inner call fails returning `badErrorData` (length 68, `Error(string)`
selector, malformed offset word), and the outer call REVERTS with the
decode failure instead of returning normally — so no record and no event is
produced for this failed inner call. -/
theorem c2_counterexample :
    specFirstFailure (stA.permissions 1 5) 2 [] 0 10 = none ∧
    executeResult stA 1 5 2 [] 0 10 0 (false, badErrorData) = some .decodeRevert := by
  exact ⟨by decide, by decide⟩

theorem executeState_permissions (st : LState) (sender pid target : Nat)
    (data : List Nat) (value now blockNum : Nat) (inner : Bool × List Nat) :
    (executeState st sender pid target data value now blockNum inner).permissions =
      st.permissions := by
  simp only [executeState, executeWithPermission]
  split_ifs <;> try rfl
  rcases hr : extractRevertReason inner.2 with _ | r <;> simp [hr]

theorem executeTokenTransfer_permissions (st : LState)
    (sender pid tokenAddress recipient amount now : Nat) (transferOk : Bool) :
    (match executeTokenTransfer st sender pid tokenAddress recipient amount now transferOk with
     | .ok st' => st'
     | .error _ => st).permissions = st.permissions := by
  simp only [executeTokenTransfer]
  split_ifs <;> rfl

theorem stepOp_perm_cases (st : LState) (e pid : Nat) (op : Op)
    (h : grantHits e pid op = false) :
    (stepOp st op).permissions e pid = st.permissions e pid ∨
    (stepOp st op).permissions e pid =
      { st.permissions e pid with active := false } := by
  cases op with
  | grant s ex t sel mv mt ta exp now bn =>
    left
    simp only [grantHits, decide_eq_false_iff_not] at h
    simp only [stepOp, grantPermission]
    split_ifs
    · rfl
    · have hne : ¬ (e = ex ∧ pid = permIdHash ex t sel mv mt ta exp now bn) :=
        fun hc => h ⟨hc.1.symm, hc.2.symm⟩
      simp [hne]
    · rfl
  | revoke s p =>
    simp only [stepOp, revokePermission]
    split_ifs with h1
    · left; rfl
    · by_cases hc : e = s ∧ pid = p
      · right
        obtain ⟨hes, hpp⟩ := hc
        subst hes; subst hpp
        simp
      · left; simp [hc]
  | exec s p t d v now bn inner =>
    left
    simp only [stepOp]
    rw [executeState_permissions]
  | token s p ta r amt now ok =>
    left
    simp only [stepOp]
    rw [executeTokenTransfer_permissions]

theorem applyOps_perm_cases (e pid : Nat) (ops : List Op)
    (h : ∀ op ∈ ops, grantHits e pid op = false) (st : LState) :
    (applyOps st ops).permissions e pid = st.permissions e pid ∨
    (applyOps st ops).permissions e pid =
      { st.permissions e pid with active := false } := by
  induction ops generalizing st with
  | nil => left; rfl
  | cons op rest ih =>
    have hop : grantHits e pid op = false := h op (List.mem_cons_self op rest)
    have hrest : ∀ o ∈ rest, grantHits e pid o = false :=
      fun o ho => h o (List.mem_cons_of_mem op ho)
    have hchain : applyOps st (op :: rest) = applyOps (stepOp st op) rest := rfl
    rcases stepOp_perm_cases st e pid op hop with h1 | h1 <;>
      rcases ih hrest (stepOp st op) with h2 | h2
    · left; rw [hchain, h2, h1]
    · right; rw [hchain, h2, h1]
    · right; rw [hchain, h2, h1]
    · right; rw [hchain, h2, h1]

/-- C7 (amended): for every reachable ledger state, once the capability
stored under `(e, pid)` is inactive it stays inactive under every sequence
of `revokePermission`, `executeWithPermission` and `executeTokenTransfer`
operations and every `grantPermission` whose derived id does not collide
with `pid` for executor `e`; moreover all identifying fields of the stored
capability (target, selector, limits, token address, expiry) are unchanged
by such a sequence, so the identifier under which the capability is stored
never changes.  The original unconditional claim is false: regranting the
exact same parameters in the same block and at the same timestamp derives
the same keccak id and overwrites the slot with `active := true` (see the
counterexample), so the no-colliding-grant hypothesis is necessary. -/
theorem c7_revocation_terminal (st : LState) (ops : List Op) (e pid : Nat)
    (h : ∀ op ∈ ops, grantHits e pid op = false) :
    (((st.permissions e pid).active = false →
      ((applyOps st ops).permissions e pid).active = false) ∧
     ((applyOps st ops).permissions e pid).target = (st.permissions e pid).target ∧
     ((applyOps st ops).permissions e pid).selector = (st.permissions e pid).selector ∧
     ((applyOps st ops).permissions e pid).maxValue = (st.permissions e pid).maxValue ∧
     ((applyOps st ops).permissions e pid).maxTokenAmount =
       (st.permissions e pid).maxTokenAmount ∧
     ((applyOps st ops).permissions e pid).tokenAddress =
       (st.permissions e pid).tokenAddress ∧
     ((applyOps st ops).permissions e pid).expiry = (st.permissions e pid).expiry) := by
  rcases applyOps_perm_cases e pid ops h st with h1 | h1 <;> rw [h1] <;> simp

/-- Witness for C7 at concrete inputs: after revoking id 5 on `stA`, a
further revoke and a gated execution (no grant in the sequence) leave the
capability inactive and its fields unchanged. -/
theorem c7_witness :
    (((stA.permissions 1 5).active = false →
      ((applyOps stA [Op.revoke 1 5, Op.exec 1 5 2 [] 0 11 0 (true, [])]).permissions 1 5).active = false) ∧
     ((applyOps stA [Op.revoke 1 5, Op.exec 1 5 2 [] 0 11 0 (true, [])]).permissions 1 5).target = (stA.permissions 1 5).target ∧
     ((applyOps stA [Op.revoke 1 5, Op.exec 1 5 2 [] 0 11 0 (true, [])]).permissions 1 5).selector = (stA.permissions 1 5).selector ∧
     ((applyOps stA [Op.revoke 1 5, Op.exec 1 5 2 [] 0 11 0 (true, [])]).permissions 1 5).maxValue = (stA.permissions 1 5).maxValue ∧
     ((applyOps stA [Op.revoke 1 5, Op.exec 1 5 2 [] 0 11 0 (true, [])]).permissions 1 5).maxTokenAmount = (stA.permissions 1 5).maxTokenAmount ∧
     ((applyOps stA [Op.revoke 1 5, Op.exec 1 5 2 [] 0 11 0 (true, [])]).permissions 1 5).tokenAddress = (stA.permissions 1 5).tokenAddress ∧
     ((applyOps stA [Op.revoke 1 5, Op.exec 1 5 2 [] 0 11 0 (true, [])]).permissions 1 5).expiry = (stA.permissions 1 5).expiry) :=
  c7_revocation_terminal stA [Op.revoke 1 5, Op.exec 1 5 2 [] 0 11 0 (true, [])] 1 5
    (by decide)

/-- Counterexample to C7 as stated: granting, revoking, then granting again
with identical parameters at the same timestamp and block number derives the
same permission id, and the capability stored under that id is active again
after having been inactive — revocation is not terminal under id-colliding
regrants. -/
theorem c7_counterexample :
    ((applyOps LState.empty [regrantOp, Op.revoke 1 regrantPid]).permissions 1 regrantPid).active = false ∧
    ((applyOps LState.empty [regrantOp, Op.revoke 1 regrantPid, regrantOp]).permissions 1 regrantPid).active = true := by
  exact ⟨rfl, rfl⟩

theorem executeWithPermission_ok_eq (st : LState) (sender pid target : Nat)
    (data : List Nat) (value now blockNum : Nat) (success : Bool)
    (rd : List Nat) (reason : String)
    (hpass : specFirstFailure (st.permissions sender pid) target data value now = none)
    (hreason : (if success = true then some "success" else extractRevertReason rd) =
      some reason) :
    executeWithPermission st sender pid target data value now blockNum (success, rd) =
      .ok ({ st with
        executions := fun i =>
          if i = execIdHash sender target data value now blockNum then
            some { executor := sender, target := target, selector := selOf data,
                   value := value, data := data, timestamp := now,
                   permissionId := pid, success := success, reason := reason }
          else st.executions i
        executionHistory := st.executionHistory ++
          [execIdHash sender target data value now blockNum]
        events := st.events ++
          [.executionRecorded (execIdHash sender target data value now blockNum)
             sender target (selOf data) value pid success reason,
           .permissionUsed sender pid (execIdHash sender target data value now blockNum)
             target (selOf data) value success] }, success, rd) := by
  obtain ⟨h1, h2, h3, h4, h5, h6⟩ := (specFirstFailure_none_iff _ _ _ _ _).mp hpass
  simp only [executeWithPermission]
  rw [if_neg (by simpa using h1), if_neg (by simp [h2]), if_neg (by simp [h3]),
    if_neg (not_not_intro h4), if_neg (not_not_intro h5), if_neg (not_not_intro h6)]
  simp only [hreason]

theorem decodeErrorString_canonical (sel off len bs pad : List Nat)
    (hsel : sel.length = 4) (hoffl : off.length = 32) (hoffv : beNat off = 32)
    (hlenl : len.length = 32) (hlenv : beNat len = bs.length)
    (hbs : bs.length < 2 ^ 64) :
    decodeErrorString (sel ++ (off ++ (len ++ (bs ++ pad)))) =
      some (stringOfBytes bs) := by
  simp only [decodeErrorString]
  rw [List.drop_left' hsel, List.take_left' hoffl, hoffv, List.drop_left' hoffl,
    List.take_left' hlenl, hlenv]
  rw [if_pos (by norm_num : (32 : Nat) < 2 ^ 64), if_pos hbs]
  have hdrop : (off ++ (len ++ (bs ++ pad))).drop (32 + 32) = bs ++ pad := by
    rw [← List.append_assoc]
    exact List.drop_left' (by simp [hoffl, hlenl])
  rw [hdrop, List.take_left' rfl]

/-- C9 (amended): the revert-reason routine behaves as follows.  Empty return
data gives exactly "unknown error".  Non-empty data that is shorter than 68
bytes or does not start with the `Error(string)` selector gives exactly
"execution reverted".  Data consisting of the selector, a canonical offset
word 32, a length word and that many content bytes decodes to exactly the
content string.  But data of length at least 68 starting with the selector
whose offset word is out of range makes the decoder REVERT (the routine is
not total: the failure propagates, it does not fall back to
"execution reverted" as the original claim stated — see the counterexample).
On a successful inner call the recorded reason is the sentinel "success". -/
theorem c9_revert_reason_extraction :
    (extractRevertReason [] = some "unknown error") ∧
    (∀ d : List Nat, d ≠ [] →
      (d.length < 68 ∨ d.take 4 ≠ [0x08, 0xc3, 0x79, 0xa0]) →
      extractRevertReason d = some "execution reverted") ∧
    (∀ off len bs pad : List Nat, off.length = 32 → beNat off = 32 →
      len.length = 32 → beNat len = bs.length → bs.length < 2 ^ 64 →
      extractRevertReason ([0x08, 0xc3, 0x79, 0xa0] ++ off ++ len ++ bs ++ pad) =
        some (stringOfBytes bs)) ∧
    (∀ rest : List Nat, 64 ≤ rest.length → 2 ^ 64 ≤ beNat (rest.take 32) →
      extractRevertReason ([0x08, 0xc3, 0x79, 0xa0] ++ rest) = none) ∧
    (∀ (st : LState) (sender pid target : Nat) (data : List Nat)
       (value now blockNum : Nat) (rd : List Nat),
      specFirstFailure (st.permissions sender pid) target data value now = none →
      ∃ st', executeWithPermission st sender pid target data value now blockNum
          (true, rd) = .ok (st', true, rd) ∧
        ∃ r, st'.executions (execIdHash sender target data value now blockNum) =
          some r ∧ r.reason = "success") := by
  refine ⟨rfl, ?_, ?_, ?_, ?_⟩
  · intro d hne hcase
    unfold extractRevertReason
    rw [if_neg (by simpa [List.length_eq_zero] using hne), if_neg ?_]
    rintro ⟨hlen, htake⟩
    rcases hcase with hlt | hns
    · exact absurd hlen (Nat.not_le.mpr hlt)
    · exact hns htake
  · intro off len bs pad h1 h2 h3 h4 h5
    rw [show ([0x08, 0xc3, 0x79, 0xa0] ++ off ++ len ++ bs ++ pad : List Nat) =
        [0x08, 0xc3, 0x79, 0xa0] ++ (off ++ (len ++ (bs ++ pad))) by
      simp [List.append_assoc]]
    unfold extractRevertReason
    rw [if_neg (by simp), if_pos ⟨by simp [h1, h3]; omega, List.take_left' rfl⟩]
    exact decodeErrorString_canonical _ off len bs pad rfl h1 h2 h3 h4 h5
  · intro rest hlen hoff
    unfold extractRevertReason
    rw [if_neg (by simp), if_pos ⟨by simp; omega, List.take_left' rfl⟩]
    simp only [decodeErrorString]
    rw [List.drop_left' (show ([0x08, 0xc3, 0x79, 0xa0] : List Nat).length = 4 from rfl),
      if_neg (Nat.not_lt.mpr hoff)]
  · intro st sender pid target data value now blockNum rd hpass
    refine ⟨_, executeWithPermission_ok_eq st sender pid target data value now
      blockNum true rd "success" hpass (by simp), ?_⟩
    exact Exists.intro
      ⟨sender, target, selOf data, value, data, now, pid, true, "success"⟩
      ⟨by simp, rfl⟩

/-- Witness for C9 at concrete inputs: three-byte garbage yields
"execution reverted", and a canonical `Error(string)` payload carrying the
two bytes 104 105 decodes to that string. -/
theorem c9_witness :
    extractRevertReason [1, 2, 3] = some "execution reverted" ∧
    extractRevertReason ([0x08, 0xc3, 0x79, 0xa0] ++ word32 32 ++ word32 2 ++
      [104, 105] ++ []) = some (stringOfBytes [104, 105]) :=
  ⟨c9_revert_reason_extraction.2.1 [1, 2, 3] (by decide) (by decide),
   c9_revert_reason_extraction.2.2.1 (word32 32) (word32 2) [104, 105] []
     (by decide) (by decide) (by decide) (by decide) (by decide)⟩

/-- Counterexample to C9 as stated: `badErrorData` has length 68, starts with
the `Error(string)` selector, and does not decode as a structured
`Error(string)` payload; the claim says the routine returns
"execution reverted" on such data, but the decoder reverts (`none`) —
the extraction is not total. -/
theorem c9_counterexample :
    badErrorData.length = 68 ∧
    badErrorData.take 4 = [0x08, 0xc3, 0x79, 0xa0] ∧
    extractRevertReason badErrorData = none := by
  exact ⟨by decide, by decide, by decide⟩

theorem kvSet_get_same {κ υ : Type} [DecidableEq κ] (t : κ → Option υ) (k : κ) (v : υ) :
    kvSet t k v k = some v := by simp [kvSet]

theorem kvSet_get_ne {κ υ : Type} [DecidableEq κ] (t : κ → Option υ) (k j : κ) (v : υ)
    (h : j ≠ k) : kvSet t k v j = t j := by simp [kvSet, h]

theorem kvSet_idem {κ υ : Type} [DecidableEq κ] (t : κ → Option υ) (k : κ) (v : υ) :
    kvSet (kvSet t k v) k v = kvSet t k v := by
  funext j
  by_cases h : j = k <;> simp [kvSet, h]

theorem envioMirror_ext (m1 m2 : EnvioMirror)
    (h1 : m1.permission = m2.permission) (h2 : m1.execution = m2.execution)
    (h3 : m1.grantedEvents = m2.grantedEvents)
    (h4 : m1.revokedEvents = m2.revokedEvents)
    (h5 : m1.usedEvents = m2.usedEvents) : m1 = m2 := by
  cases m1; cases m2
  simp only [EnvioMirror.mk.injEq]
  exact ⟨h1, h2, h3, h4, h5⟩

theorem p2Mirror_ext (m1 m2 : P2Mirror)
    (h1 : m1.permission = m2.permission) (h2 : m1.execution = m2.execution)
    (h3 : m1.grantedEvents = m2.grantedEvents)
    (h4 : m1.revokedEvents = m2.revokedEvents)
    (h5 : m1.usedEvents = m2.usedEvents) : m1 = m2 := by
  cases m1; cases m2
  simp only [P2Mirror.mk.injEq]
  exact ⟨h1, h2, h3, h4, h5⟩

theorem envioApply_idem (m : EnvioMirror) (e : REvent) :
    envioApply (envioApply m e) e = envioApply m e := by
  cases e with
  | granted ctx user pid t sel mv mt ta ex =>
    exact envioMirror_ext _ _ (kvSet_idem _ _ _) rfl (kvSet_idem _ _ _) rfl rfl
  | revoked ctx user pid =>
    cases hp : m.permission pid with
    | none =>
      refine envioMirror_ext _ _ ?_ rfl rfl (kvSet_idem _ _ _) rfl
      simp only [envioApply, hp]
    | some p =>
      refine envioMirror_ext _ _ ?_ rfl rfl (kvSet_idem _ _ _) rfl
      simp only [envioApply, hp, kvSet_get_same]
      rw [kvSet_idem]
  | used ctx user pid eid t sel v succ =>
    exact envioMirror_ext _ _ rfl rfl rfl rfl (kvSet_idem _ _ _)
  | execRecorded ctx eid executor t sel v pid succ reason =>
    exact envioMirror_ext _ _ rfl (kvSet_idem _ _ _) rfl rfl rfl

theorem p2Apply_idem (m : P2Mirror) (e : REvent) :
    p2Apply (p2Apply m e) e = p2Apply m e := by
  cases e with
  | granted ctx user pid t sel mv mt ta ex =>
    exact p2Mirror_ext _ _ (kvSet_idem _ _ _) rfl (kvSet_idem _ _ _) rfl rfl
  | revoked ctx user pid =>
    cases hp : m.permission pid with
    | none =>
      refine p2Mirror_ext _ _ ?_ rfl rfl (kvSet_idem _ _ _) rfl
      simp only [p2Apply, hp]
    | some p =>
      refine p2Mirror_ext _ _ ?_ rfl rfl (kvSet_idem _ _ _) rfl
      simp only [p2Apply, hp, kvSet_get_same]
      rw [kvSet_idem]
  | used ctx user pid eid t sel v succ =>
    exact p2Mirror_ext _ _ rfl rfl rfl rfl (kvSet_idem _ _ _)
  | execRecorded ctx eid executor t sel v pid succ reason =>
    cases hp : m.permission pid with
    | none =>
      simp only [p2Apply, hp]
    | some p =>
      have hstep : p2Apply m (.execRecorded ctx eid executor t sel v pid succ reason) =
          { m with execution := kvSet m.execution eid
                      ⟨executor, pid, pid, ctx.timestamp, ctx.blockNumber, ctx.txHash⟩ } := by
        simp only [p2Apply, hp]
      rw [hstep]
      simp only [p2Apply, hp]
      exact p2Mirror_ext _ _ rfl (kvSet_idem _ _ _) rfl rfl rfl

theorem envioApplyStream_cons (m : EnvioMirror) (e : REvent) (s : List REvent) :
    envioApplyStream m (e :: s) = envioApplyStream (envioApply m e) s := rfl

theorem envioApplyStream_append (m : EnvioMirror) (s1 s2 : List REvent) :
    envioApplyStream m (s1 ++ s2) = envioApplyStream (envioApplyStream m s1) s2 :=
  List.foldl_append _ _ _ _

theorem p2ApplyStream_append (m : P2Mirror) (s1 s2 : List REvent) :
    p2ApplyStream m (s1 ++ s2) = p2ApplyStream (p2ApplyStream m s1) s2 :=
  List.foldl_append _ _ _ _

theorem envio_perm_proj (s : List REvent) (m : EnvioMirror) (k : Nat) :
    (envioApplyStream m s).permission k = permFold (m.permission k) (permTrace k s) := by
  induction s generalizing m with
  | nil => rfl
  | cons e rest ih =>
    rw [envioApplyStream_cons, ih]
    cases e with
    | granted ctx u pid t sel mv mt ta ex =>
      by_cases hpk : pid = k
      · subst hpk
        simp [permTrace, envioApply, kvSet_get_same, permFold, permStep, grantRow]
      · have hkp : ¬ (k = pid) := fun h => hpk h.symm
        simp [permTrace, envioApply, kvSet, hpk, hkp]
    | revoked ctx u pid =>
      by_cases hpk : pid = k
      · subst hpk
        cases hp : m.permission pid with
        | none => simp [permTrace, envioApply, hp, permFold, permStep]
        | some p =>
          simp [permTrace, envioApply, hp, kvSet_get_same, permFold, permStep, revP]
      · have hkp : ¬ (k = pid) := fun h => hpk h.symm
        cases hp : m.permission pid with
        | none => simp [permTrace, envioApply, hp, hpk, hkp, kvSet]
        | some p => simp [permTrace, envioApply, hp, hpk, hkp, kvSet]
    | used ctx u pid eid t sel v succ => simp [permTrace, envioApply]
    | execRecorded ctx eid ex t sel v pid succ reason => simp [permTrace, envioApply]

theorem envio_exec_proj (s : List REvent) (m : EnvioMirror) (k : Nat) :
    (envioApplyStream m s).execution k = constFold (m.execution k) (execWritesAt k s) := by
  induction s generalizing m with
  | nil => rfl
  | cons e rest ih =>
    rw [envioApplyStream_cons, ih]
    cases e with
    | execRecorded ctx eid ex t sel v pid succ reason =>
      by_cases hek : eid = k
      · subst hek
        simp [execWritesAt, envioApply, kvSet_get_same, constFold]
      · have hke : ¬ (k = eid) := fun h => hek h.symm
        simp [execWritesAt, envioApply, kvSet, hek, hke]
    | granted ctx u pid t sel mv mt ta ex => simp [execWritesAt, envioApply]
    | revoked ctx u pid => simp [execWritesAt, envioApply]
    | used ctx u pid eid t sel v succ => simp [execWritesAt, envioApply]

theorem envio_granted_proj (s : List REvent) (m : EnvioMirror) (k : Nat × Nat) :
    (envioApplyStream m s).grantedEvents k =
      constFold (m.grantedEvents k) (grantedWritesAt k s) := by
  induction s generalizing m with
  | nil => rfl
  | cons e rest ih =>
    rw [envioApplyStream_cons, ih]
    cases e with
    | granted ctx u pid t sel mv mt ta ex =>
      by_cases hek : (ctx.txHash, ctx.logIndex) = k
      · subst hek
        simp [grantedWritesAt, envioApply, kvSet_get_same, constFold]
      · have hke : ¬ (k = (ctx.txHash, ctx.logIndex)) := fun h => hek h.symm
        simp [grantedWritesAt, envioApply, kvSet, hek, hke]
    | revoked ctx u pid => simp [grantedWritesAt, envioApply]
    | used ctx u pid eid t sel v succ => simp [grantedWritesAt, envioApply]
    | execRecorded ctx eid ex t sel v pid succ reason => simp [grantedWritesAt, envioApply]

theorem envio_revoked_proj (s : List REvent) (m : EnvioMirror) (k : Nat × Nat) :
    (envioApplyStream m s).revokedEvents k =
      constFold (m.revokedEvents k) (revokedWritesAt k s) := by
  induction s generalizing m with
  | nil => rfl
  | cons e rest ih =>
    rw [envioApplyStream_cons, ih]
    cases e with
    | revoked ctx u pid =>
      by_cases hek : (ctx.txHash, ctx.logIndex) = k
      · subst hek
        simp [revokedWritesAt, envioApply, kvSet_get_same, constFold]
      · have hke : ¬ (k = (ctx.txHash, ctx.logIndex)) := fun h => hek h.symm
        simp [revokedWritesAt, envioApply, kvSet, hek, hke]
    | granted ctx u pid t sel mv mt ta ex => simp [revokedWritesAt, envioApply]
    | used ctx u pid eid t sel v succ => simp [revokedWritesAt, envioApply]
    | execRecorded ctx eid ex t sel v pid succ reason => simp [revokedWritesAt, envioApply]

theorem envio_used_proj (s : List REvent) (m : EnvioMirror) (k : Nat × Nat) :
    (envioApplyStream m s).usedEvents k =
      constFold (m.usedEvents k) (usedWritesAt k s) := by
  induction s generalizing m with
  | nil => rfl
  | cons e rest ih =>
    rw [envioApplyStream_cons, ih]
    cases e with
    | used ctx u pid eid t sel v succ =>
      by_cases hek : (ctx.txHash, ctx.logIndex) = k
      · subst hek
        simp [usedWritesAt, envioApply, kvSet_get_same, constFold]
      · have hke : ¬ (k = (ctx.txHash, ctx.logIndex)) := fun h => hek h.symm
        simp [usedWritesAt, envioApply, kvSet, hek, hke]
    | granted ctx u pid t sel mv mt ta ex => simp [usedWritesAt, envioApply]
    | revoked ctx u pid => simp [usedWritesAt, envioApply]
    | execRecorded ctx eid ex t sel v pid succ reason => simp [usedWritesAt, envioApply]

theorem constFold_of_ne_nil {υ : Type} (vs : List υ) (h : vs ≠ []) (x y : Option υ) :
    constFold x vs = constFold y vs := by
  cases vs with
  | nil => exact absurd rfl h
  | cons v rest => rfl

theorem constFold_idem {υ : Type} (x : Option υ) (vs : List υ) :
    constFold (constFold x vs) vs = constFold x vs := by
  cases vs with
  | nil => rfl
  | cons v rest => exact constFold_of_ne_nil _ (by simp) _ _

theorem permFold_insensitive (σ : List PermOp) (h : hasG σ = true)
    (x y : Option EPermission) : permFold x σ = permFold y σ := by
  induction σ generalizing x y with
  | nil => simp [hasG] at h
  | cons op rest ih =>
    cases op with
    | g ctx u t sel mv mt ta ex => rfl
    | r ctx =>
      have hrest : hasG rest = true := by simpa [hasG, PermOp.isG] using h
      exact ih hrest _ _

theorem permFold_none (σ : List PermOp) (h : hasG σ = false) :
    permFold none σ = none := by
  induction σ with
  | nil => rfl
  | cons op rest ih =>
    cases op with
    | g ctx u t sel mv mt ta ex => simp [hasG, PermOp.isG] at h
    | r ctx =>
      have hrest : hasG rest = false := by simpa [hasG, PermOp.isG] using h
      exact ih hrest

theorem permFold_some (σ : List PermOp) (h : hasG σ = false) :
    ∀ q : EPermission, ∃ w, permFold (some q) σ = some w := by
  induction σ with
  | nil => exact fun q => ⟨q, rfl⟩
  | cons op rest ih =>
    intro q
    cases op with
    | g ctx u t sel mv mt ta ex => simp [hasG, PermOp.isG] at h
    | r ctx =>
      have hrest : hasG rest = false := by simpa [hasG, PermOp.isG] using h
      exact ih hrest (revP ctx q)

theorem permFold_revP (σ : List PermOp) (h : hasG σ = false) (hne : σ ≠ [])
    (c : EvCtx) (q : EPermission) :
    permFold (some (revP c q)) σ = permFold (some q) σ := by
  cases σ with
  | nil => exact absurd rfl hne
  | cons op rest =>
    cases op with
    | g ctx u t sel mv mt ta ex => simp [hasG, PermOp.isG] at h
    | r c' => rfl

theorem permFold_idem (σ : List PermOp) : ∀ x : Option EPermission,
    permFold (permFold x σ) σ = permFold x σ := by
  induction σ with
  | nil => intro x; rfl
  | cons op rest ih =>
    intro x
    cases hG : hasG (op :: rest) with
    | true => exact permFold_insensitive _ hG _ _
    | false =>
      cases op with
      | g ctx u t sel mv mt ta ex => simp [hasG, PermOp.isG] at hG
      | r c =>
        have hrest : hasG rest = false := by simpa [hasG, PermOp.isG] using hG
        cases x with
        | none =>
          have h1 : permFold (none : Option EPermission) (.r c :: rest) = none :=
            permFold_none rest hrest
          rw [h1]
          exact h1
        | some q =>
          rcases rest with _ | ⟨op2, rest2⟩
          · rfl
          · have hne : (op2 :: rest2) ≠ ([] : List PermOp) := by simp
            obtain ⟨w, hw⟩ := permFold_some (op2 :: rest2) hrest (revP c q)
            have hfold : permFold (some q) (.r c :: op2 :: rest2) = some w := hw
            rw [hfold]
            show permFold (some (revP c w)) (op2 :: rest2) = some w
            rw [permFold_revP (op2 :: rest2) hrest hne c w, ← hw]
            exact ih (some (revP c q))

theorem envio_stream_idem (s : List REvent) (m : EnvioMirror) :
    envioApplyStream (envioApplyStream m s) s = envioApplyStream m s := by
  apply envioMirror_ext
  · funext k
    simp only [envio_perm_proj]
    exact permFold_idem _ _
  · funext k
    simp only [envio_exec_proj]
    exact constFold_idem _ _
  · funext k
    simp only [envio_granted_proj]
    exact constFold_idem _ _
  · funext k
    simp only [envio_revoked_proj]
    exact constFold_idem _ _
  · funext k
    simp only [envio_used_proj]
    exact constFold_idem _ _

/-- C5 (amended): for the Envio handlers of `mapping.ts`, applying any finite
event stream twice in sequence yields a Mirror identical to applying it
once, and duplicating any event in place is a no-op; for the part_002
handlers, duplicating any event in place is likewise a no-op.  The original
claim also asserted full second-pass idempotence for the part_002 handlers
over EVERY stream; that fails on streams where an `ExecutionRecorded`
precedes the grant of its referenced permission, because the first pass
drops the execution projection and the second pass, seeing the now-present
permission, writes it (see the counterexample).  On causally ordered
streams — the only streams the ledger emits — no such event is dropped. -/
theorem c5_reconciler_idempotent :
    (∀ (s : List REvent) (m : EnvioMirror),
      envioApplyStream (envioApplyStream m s) s = envioApplyStream m s) ∧
    (∀ (s1 s2 : List REvent) (e : REvent) (m : EnvioMirror),
      envioApplyStream m (s1 ++ e :: e :: s2) = envioApplyStream m (s1 ++ e :: s2)) ∧
    (∀ (s1 s2 : List REvent) (e : REvent) (m : P2Mirror),
      p2ApplyStream m (s1 ++ e :: e :: s2) = p2ApplyStream m (s1 ++ e :: s2)) := by
  refine ⟨envio_stream_idem, ?_, ?_⟩
  · intro s1 s2 e m
    rw [envioApplyStream_append, envioApplyStream_append, envioApplyStream_cons,
      envioApplyStream_cons, envioApplyStream_cons, envioApply_idem]
  · intro s1 s2 e m
    have h1 : p2ApplyStream m (s1 ++ e :: e :: s2) =
        p2ApplyStream (p2Apply (p2Apply (p2ApplyStream m s1) e) e) s2 :=
      p2ApplyStream_append m s1 (e :: e :: s2)
    have h2 : p2ApplyStream m (s1 ++ e :: s2) =
        p2ApplyStream (p2Apply (p2ApplyStream m s1) e) s2 :=
      p2ApplyStream_append m s1 (e :: s2)
    rw [h1, h2, p2Apply_idem]

/-- Counterexample to C5 as stated: running `cexStream` (an
`ExecutionRecorded` for permission 5 followed by the grant of permission 5)
through the part_002 handlers once leaves no Execution row — the orphan
event is dropped; running the same stream through them a second time
produces an Execution row under id 7, so the double application differs
from the single one. -/
theorem c5_counterexample :
    (p2ApplyStream P2Mirror.empty cexStream).execution 7 = none ∧
    (p2ApplyStream (p2ApplyStream P2Mirror.empty cexStream) cexStream).execution 7 ≠
      none := by
  exact ⟨by decide, by decide⟩

/-- C6 (amended): the part_002 `handleExecutionRecorded` never crashes and
drops the event deterministically when the referenced Permission row is
absent — the whole mirror is returned unchanged, so no Execution row is
created; when the Permission row is present, a linked Execution row is
upserted and the permission table is untouched.  The Envio handler of
`mapping.ts`, by contrast, upserts the Execution row unconditionally — it
also never crashes, but it does create a row (with a dangling permission
reference) even when no Permission row exists, contrary to the original
claim (see the counterexample). -/
theorem c6_orphan_execution_handling :
    (∀ (m : P2Mirror) (ctx : EvCtx) (eid executor target selector value pid : Nat)
       (success : Bool) (reason : String),
      m.permission pid = none →
      p2Apply m (.execRecorded ctx eid executor target selector value pid success reason) =
        m) ∧
    (∀ (m : P2Mirror) (ctx : EvCtx) (eid executor target selector value pid : Nat)
       (success : Bool) (reason : String) (p : GPermission),
      m.permission pid = some p →
      (p2Apply m (.execRecorded ctx eid executor target selector value pid success
          reason)).execution eid =
        some { executor := executor, permission := pid, permissionId := pid,
               timestamp := ctx.timestamp, blockNumber := ctx.blockNumber,
               transactionHash := ctx.txHash } ∧
      (p2Apply m (.execRecorded ctx eid executor target selector value pid success
          reason)).permission = m.permission) ∧
    (∀ (m : EnvioMirror) (ctx : EvCtx) (eid executor target selector value pid : Nat)
       (success : Bool) (reason : String),
      (envioApply m (.execRecorded ctx eid executor target selector value pid success
          reason)).execution eid =
        some { executor := executor, target := target, selector := selector,
               value := value, timestamp := ctx.timestamp,
               blockNumber := ctx.blockNumber, transactionHash := ctx.txHash,
               permissionId := pid, success := success, reason := reason }) := by
  refine ⟨?_, ?_, ?_⟩
  · intro m ctx eid executor target selector value pid success reason h
    simp only [p2Apply, h]
  · intro m ctx eid executor target selector value pid success reason p h
    constructor
    · simp only [p2Apply, h, kvSet_get_same]
    · simp only [p2Apply, h]
  · intro m ctx eid executor target selector value pid success reason
    simp only [envioApply, kvSet_get_same]

/-- Witness for C6 at concrete inputs: on the empty part_002 mirror the
orphan event is dropped without any write, and on a mirror holding
permission 5 the same event produces a linked Execution row. -/
theorem c6_witness :
    p2Apply P2Mirror.empty orphanExec = P2Mirror.empty ∧
    (p2Apply p2WithPerm orphanExec).execution 7 =
      some { executor := 1, permission := 5, permissionId := 5,
             timestamp := 10, blockNumber := 1, transactionHash := 100 } :=
  ⟨c6_orphan_execution_handling.1 P2Mirror.empty _ 7 1 2 0 0 5 true "success" rfl,
   (c6_orphan_execution_handling.2.1 p2WithPerm _ 7 1 2 0 0 5 true "success"
     { user := 1, active := true, grantedAt := 10, grantedAtBlock := 1,
       revokedAt := none, revokedAtBlock := none } (by decide)).1⟩

/-- Counterexample to C6 as stated: the Envio `ExecutionRecorded` handler of
`mapping.ts`, applied to the empty mirror (no Permission row for id 5),
creates an Execution row under id 7 anyway — the claim that no Execution
row is created for an orphan event does not hold for this handler. -/
theorem c6_counterexample :
    EnvioMirror.empty.permission 5 = none ∧
    (envioApply EnvioMirror.empty orphanExec).execution 7 ≠ none := by
  exact ⟨by decide, by decide⟩
